import Mathlib

/-!
Verification of the page-processing orchestrator in `ocr.py`.

The Python script drives a resumable, cancellable OCR pipeline: it renders
pages, sends each one to a streaming LLM endpoint (`call_llm`), retries a
request whose terminal reason is token-budget exhaustion with a doubled
budget (`_do_request`), strips a leading `---`-fenced metadata block from
the accumulated text, writes each transcribed page to a Markdown checkpoint
file (`_process_pages`), recovers the resume point from that file
(`get_last_processed_page`), and iterates jobs in `main`.

This file is a shallow embedding of those functions.  File contents are
lists of lines (`List String`), accumulated response text is `List Char`,
the possibly nonterminating truncation-retry loop takes a fuel argument and
returns `Option`, and the thread/clock behaviour of the watchdog in
`call_llm` is modelled by an explicit boolean (`workerAlive`: the worker
thread was still alive when the deadline ran out) together with an explicit
trace of the side-effecting steps the tail of `call_llm` performs.
-/

namespace LlmOcr

/-! ## CheckpointStore: `get_last_processed_page` (ocr.py lines 252-258)

The checkpoint is the Markdown output file itself.  `get_last_processed_page`
scans it with the regex `^## Página (\d+)` (MULTILINE) and returns the
maximum captured number, or 0 when nothing matches.  We model the file as a
list of lines; a line matches when it literally starts with `## Página `
followed by at least one digit (the regex does not anchor the line end). -/

/-- Digit run to a natural number, as Python `int` on the captured `\d+`. -/
def digitsToNat (digits : List Char) : Nat :=
  digits.foldl (fun a c => a * 10 + (c.toNat - 48)) 0

/-- Page-marker match on one line, as a list of characters: the line must
start with `## Página ` followed by at least one digit; the captured number
is the leading digit run. -/
def pageMarkerChars (l : List Char) : Option Nat :=
  if "## Página ".data.isPrefixOf l then
    let digits := (l.drop "## Página ".data.length).takeWhile Char.isDigit
    if digits.isEmpty then none
    else some (digitsToNat digits)
  else none

/-- Page-marker match on one line of the checkpoint file. -/
def pageMarker (line : String) : Option Nat :=
  pageMarkerChars line.data

/-- All page numbers captured by the marker regex over the whole file. -/
def page_markers (lines : List String) : List Nat :=
  lines.filterMap pageMarker

/-- Embedding of `get_last_processed_page` (ocr.py 252-258): the maximum
page number among the marker matches, or 0 when there is none. -/
def get_last_processed_page (lines : List String) : Nat :=
  let ms := page_markers lines
  if ms.isEmpty then 0 else ms.foldl max 0

/-! ## Metadata stripping in `call_llm` (ocr.py lines 240-249)

`call_llm` post-processes the accumulated text with
`re.sub(r"^---[ \t]*\n.*?---[ \t]*(?:\n|$)", "", text, flags=re.DOTALL)`
followed by `text.strip()`.  Because the pattern is anchored at the start of
the string (no MULTILINE), at most one substitution happens.  The lazy
`.*?` makes the closing `---[ \t]*(\n|$)` the earliest such occurrence
after the opening line. -/

/-- Space or tab, the character class `[ \t]` of the stripping regex. -/
def isSpaceTab (c : Char) : Bool :=
  c = ' ' || c = '\t'

/-- ASCII whitespace stripped by Python `str.strip()`. -/
def isPyWS (c : Char) : Bool :=
  c = ' ' || c = '\t' || c = '\n' || c = '\r' || Char.ofNat 11 = c || Char.ofNat 12 = c

/-- Python `str.strip()` on character lists (ASCII whitespace). -/
def pyStrip (s : List Char) : List Char :=
  ((s.dropWhile isPyWS).reverse.dropWhile isPyWS).reverse

/-- Match of the opening `^---[ \t]*\n` at the start of the text; returns
the remaining text after the opening delimiter line. -/
def matchOpen : List Char → Option (List Char)
  | '-' :: '-' :: '-' :: rest =>
    match rest.dropWhile isSpaceTab with
    | '\n' :: tail => some tail
    | _ => none
  | _ => none

/-- Match of the closing `---[ \t]*(?:\n|$)` at the current position;
returns the remaining text after the closing delimiter. -/
def matchClose : List Char → Option (List Char)
  | '-' :: '-' :: '-' :: rest =>
    match rest.dropWhile isSpaceTab with
    | [] => some []
    | '\n' :: tail => some tail
    | _ => none
  | _ => none

/-- Lazy scan of `.*?---[ \t]*(?:\n|$)`: the earliest position at which the
closing delimiter matches; returns the text after that match. -/
def findClose : List Char → Option (List Char)
  | [] => none
  | c :: t =>
    match matchClose (c :: t) with
    | some r => some r
    | none => findClose t

/-- Embedding of the `re.sub` call in `call_llm` (ocr.py 244): remove a
leading fenced metadata block when the whole pattern matches, otherwise
leave the text unchanged. -/
def strip_metadata (s : List Char) : List Char :=
  match matchOpen s with
  | some afterOpen =>
    match findClose afterOpen with
    | some rest => rest
    | none => s
  | none => s

/-- Text post-processing at the end of `call_llm` (ocr.py 240-249): strip
the metadata block, then strip surrounding whitespace. -/
def call_llm_text (raw : List Char) : List Char :=
  pyStrip (strip_metadata raw)

/-! ## StreamingRequestClient: `_do_request` (ocr.py lines 150-203)

One streaming attempt reads SSE events.  Lines not starting with `data:`
or with malformed JSON are skipped; `[DONE]` ends the stream; each data
event may carry an id (recorded once), a content fragment (appended when
truthy) and a finish reason (recorded when truthy).  If the final finish
reason is `"length"` the whole request is reissued from scratch with a
doubled token budget and a fresh chunk list. -/

/-- One parsed server-sent event as `_do_request` sees it: the end-of-stream
marker, a line skipped by the JSON-decode guard, or a data event. -/
inductive SSEEvent where
  | done : SSEEvent
  | malformed : SSEEvent
  | data : Option String → Option (List Char) → Option String → SSEEvent
deriving DecidableEq

/-- Accumulated state of one streaming attempt: joined content chunks, last
truthy finish reason, first recorded generation id. -/
structure StreamState where
  chunks : List Char
  finish_reason : Option String
  generation_id : Option String
deriving DecidableEq

/-- Event loop of one attempt in `_do_request` (ocr.py 166-186). -/
def runStreamAux : List SSEEvent → List Char → Option String → Option String → StreamState
  | [], chunks, fin, gid => ⟨chunks, fin, gid⟩
  | e :: rest, chunks, fin, gid =>
    match e with
    | .done => ⟨chunks, fin, gid⟩
    | .malformed => runStreamAux rest chunks fin gid
    | .data id content finish =>
      let gid' := if gid = none then id else gid
      let chunks' :=
        match content with
        | some c => if c.isEmpty then chunks else chunks ++ c
        | none => chunks
      let fin' :=
        match finish with
        | some f => if f.isEmpty then fin else some f
        | none => fin
      runStreamAux rest chunks' fin' gid'

/-- One streaming attempt from the initial state. -/
def runStream (events : List SSEEvent) : StreamState :=
  runStreamAux events [] none none

/-- Response of the remote server to one request at a given token budget:
either a transport/HTTP error or a stream of events. -/
inductive ServerResp where
  | err : ServerResp
  | ok : List SSEEvent → ServerResp
deriving DecidableEq

/-- True when the attempt at this response ends with finish reason
`"length"` (truncation). -/
def respTruncated : ServerResp → Bool
  | .err => false
  | .ok ev => (runStream ev).finish_reason == some "length"

/-- True when the request fails with a transport error. -/
def respIsError : ServerResp → Bool
  | .err => true
  | .ok _ => false

/-- Accumulated text of the attempt at this response. -/
def respText : ServerResp → List Char
  | .err => []
  | .ok ev => (runStream ev).chunks

/-- Outcome `_do_request` leaves in `result`: the worker either stored an
exception in `result["error"]` or the joined text in `result["text"]`. -/
inductive RequestResult where
  | error : RequestResult
  | ok : List Char → RequestResult
deriving DecidableEq

/-- Embedding of the retry loop of `_do_request` (ocr.py 150-203): issue the
request at the current budget; on truncation double the budget, discard the
chunks and reissue; otherwise stop.  The Python loop is unbounded, so the
embedding takes fuel and returns `none` when it runs out.  The result pairs
the list of budgets actually issued with the outcome (error, or the final
attempt's accumulated text). -/
def do_request (server : Nat → ServerResp) : Nat → Nat → Option (List Nat × RequestResult)
  | 0, _ => none
  | fuel + 1, budget =>
    match server budget with
    | .err => some ([budget], .error)
    | .ok events =>
      let st := runStream events
      if st.finish_reason = some "length" then
        match do_request server fuel (budget * 2) with
        | none => none
        | some (bs, r) => some (budget :: bs, r)
      else
        some ([budget], .ok st.chunks)

/-! ## Cancellation and the watchdog tail of `call_llm` (ocr.py 41-61, 207-249)

`_cancel_current_request` closes the registered HTTP client, if any, and
best-effort POSTs to the cancel endpoint when a generation id is known.
After the polling wait, `call_llm` either (worker still alive) tears the
attempt down and raises `TimeoutError`, or clears the registration, closes
the client, raises `InterruptedError` when the stop flag is set, re-raises
a worker error, or post-processes and returns the text. -/

/-- Observable side effects of `_cancel_current_request` (ocr.py 41-61). -/
inductive TeardownAction where
  | closeTransport : TeardownAction
  | serverCancel : String → TeardownAction
deriving DecidableEq

/-- Embedding of `_cancel_current_request`: close the registered client if
present, then notify the server's cancel endpoint if an id is known. -/
def cancel_current_request (client : Option Unit) (gid : Option String) : List TeardownAction :=
  (match client with
   | some _ => [TeardownAction.closeTransport]
   | none => []) ++
  (match gid with
   | some g => [TeardownAction.serverCancel g]
   | none => [])

/-- Observable steps of the tail of `call_llm` after the polling wait. -/
inductive CallStep where
  | teardown : List TeardownAction → CallStep
  | raiseTimeout : CallStep
  | clearRegistration : CallStep
  | closeClient : CallStep
  | raiseInterrupted : CallStep
  | raiseTransportError : CallStep
  | returnText : List Char → CallStep
deriving DecidableEq

/-- Embedding of `call_llm` after the wait loop (ocr.py 219-249).
`workerAlive` is `thread.is_alive()` once the deadline budget is spent:
`true` means the wall-clock ceiling elapsed without the attempt completing.
`stopSet` is `stop_requested.is_set()`; `client`/`gid` are the current
registration; `workerResult` is what `_do_request` left in `result`. -/
def call_llm_finish (workerAlive : Bool) (stopSet : Bool)
    (client : Option Unit) (gid : Option String)
    (workerResult : RequestResult) : List CallStep :=
  if workerAlive then
    [CallStep.teardown (cancel_current_request client gid), CallStep.raiseTimeout]
  else
    CallStep.clearRegistration :: CallStep.closeClient ::
      (if stopSet then [CallStep.raiseInterrupted]
       else
        match workerResult with
        | .error => [CallStep.raiseTransportError]
        | .ok raw => [CallStep.returnText (call_llm_text raw)])

/-! ## PageProcessingLoop: `_process_pages` (ocr.py lines 261-343)

The loop iterates `range(start_page, total_pages)`.  Before each page it
checks the stop flag.  A successful `call_llm` resets the consecutive-error
counter and appends a `## Página n+1` record (text, or the `Sin contenido.`
placeholder when the text is empty).  `InterruptedError` breaks the loop
with nothing written.  `TimeoutError`/`httpx.HTTPError`/`OSError` increment
the counter, record the failed page number, and continue — unless the
counter reaches `MAX_CONSECUTIVE_ERRORS`, which stops the whole job. -/

/-- Outcome of one `call_llm` invocation as the loop observes it. -/
inductive PageOutcome where
  | success : List Char → PageOutcome
  | interrupted : PageOutcome
  | failure : PageOutcome
deriving DecidableEq

/-- Checkpoint record appended for one page: its text, or the literal
`Sin contenido.` placeholder. -/
inductive Entry where
  | text : List Char → Entry
  | noContent : Entry
deriving DecidableEq

/-- Record written for the text a page produced (`if text:` in ocr.py 332). -/
def entryOf (t : List Char) : Entry :=
  if t.isEmpty then Entry.noContent else Entry.text t

/-- How the page loop ended. -/
inductive EndReason where
  | finished : EndReason
  | stopFlag : EndReason
  | interrupted : EndReason
  | threshold : EndReason
deriving DecidableEq

/-- Observable result of the page loop: checkpoint records appended (1-based
page number with the record), failed 1-based page numbers, 0-based pages on
which `call_llm` was invoked, and how the loop ended. -/
structure LoopResult where
  entries : List (Nat × Entry)
  error_pages : List Nat
  attempts : List Nat
  endReason : EndReason
deriving DecidableEq

/-- Body of the page loop, by recursion on the number of remaining
iterations of `range(start_page, total_pages)`.  `llm page` is the outcome
of `call_llm` on that page; `stop page` is the stop flag observed at the
top of that iteration; `cerr` is `consecutive_errors`. -/
def runLoopAux (llm : Nat → PageOutcome) (stop : Nat → Bool) (maxErr : Nat) :
    Nat → Nat → Nat → LoopResult
  | 0, _, _ => ⟨[], [], [], EndReason.finished⟩
  | r + 1, page, cerr =>
    if stop page then ⟨[], [], [], EndReason.stopFlag⟩
    else
      match llm page with
      | .interrupted => ⟨[], [], [page], EndReason.interrupted⟩
      | .failure =>
        if maxErr ≤ cerr + 1 then ⟨[], [page + 1], [page], EndReason.threshold⟩
        else
          let rest := runLoopAux llm stop maxErr r (page + 1) (cerr + 1)
          ⟨rest.entries, (page + 1) :: rest.error_pages, page :: rest.attempts, rest.endReason⟩
      | .success t =>
        let rest := runLoopAux llm stop maxErr r (page + 1) 0
        ⟨(page + 1, entryOf t) :: rest.entries, rest.error_pages, page :: rest.attempts, rest.endReason⟩

/-- Embedding of `_process_pages` (ocr.py 261-343): run the loop over
`range(start_page, total_pages)` with the consecutive-error counter at 0. -/
def process_pages (llm : Nat → PageOutcome) (stop : Nat → Bool) (maxErr : Nat)
    (total_pages start_page : Nat) : LoopResult :=
  runLoopAux llm stop maxErr (total_pages - start_page) start_page 0

/-! ## Job setup: `convert_pdf_to_images` / `process_image_dir` (ocr.py 346-422)

Both functions share the resume logic: if the Markdown file exists and
`get_last_processed_page` is at least the page count, the job is skipped
outright (no file opened, no request made); otherwise the loop starts at
the recovered page in append mode, or at 0 in write mode for a fresh
file. -/

/-- Observable result of one job. -/
structure JobRun where
  skipped : Bool
  file_mode : String
  start_page : Nat
  result : LoopResult
deriving DecidableEq

/-- Embedding of the resume logic of `convert_pdf_to_images` (ocr.py
354-377).  `existing` is the checkpoint file's lines when it exists. -/
def convert_pdf_to_images (existing : Option (List String)) (total_pages : Nat)
    (llm : Nat → PageOutcome) (stop : Nat → Bool) (maxErr : Nat) : JobRun :=
  match existing with
  | some lines =>
    let last_page := get_last_processed_page lines
    if total_pages ≤ last_page then
      ⟨true, "a", last_page, ⟨[], [], [], EndReason.finished⟩⟩
    else
      ⟨false, "a", last_page, process_pages llm stop maxErr total_pages last_page⟩
  | none =>
    ⟨false, "w", 0, process_pages llm stop maxErr total_pages 0⟩

/-- Embedding of the resume logic of `process_image_dir` (ocr.py 396-422),
identical to the PDF case with `total_pages` the number of image files. -/
def process_image_dir (existing : Option (List String)) (total_pages : Nat)
    (llm : Nat → PageOutcome) (stop : Nat → Bool) (maxErr : Nat) : JobRun :=
  match existing with
  | some lines =>
    let last_page := get_last_processed_page lines
    if total_pages ≤ last_page then
      ⟨true, "a", last_page, ⟨[], [], [], EndReason.finished⟩⟩
    else
      ⟨false, "a", last_page, process_pages llm stop maxErr total_pages last_page⟩
  | none =>
    ⟨false, "w", 0, process_pages llm stop maxErr total_pages 0⟩

/-! ## Job driver: `main` (ocr.py lines 425-463)

`main` sorts the PDF files, then the image directories, and runs two
sequential loops, each checking `stop_requested` before starting a job.
Job names are modelled by an arbitrary linear order; `flag i` is the value
of the stop flag observed before the i-th job of the combined sequence. -/

/-- Jobs actually started by a loop that checks the stop flag before each
job and breaks as soon as it is set. -/
def jobs_started {α : Type} : List α → (Nat → Bool) → List α
  | [], _ => []
  | j :: rest, flag =>
    if flag 0 then [] else j :: jobs_started rest (fun i => flag (i + 1))

/-- Embedding of the job iteration of `main` (ocr.py 427-455): sorted PDF
jobs first, then sorted image-directory jobs, stop flag checked before each
job. -/
def main_driver {α : Type} [LinearOrder α] (pdf_files image_dirs : List α)
    (flag : Nat → Bool) : List α :=
  jobs_started (List.insertionSort (· ≤ ·) pdf_files ++ List.insertionSort (· ≤ ·) image_dirs) flag

/-! ## Helper lemmas -/

theorem le_foldl_max (l : List Nat) (a : Nat) : a ≤ l.foldl max a := by
  induction l generalizing a with
  | nil => exact le_refl a
  | cons x t ih => exact le_trans (le_max_left a x) (ih (max a x))

theorem mem_le_foldl_max (l : List Nat) (a m : Nat) (h : m ∈ l) : m ≤ l.foldl max a := by
  induction l generalizing a with
  | nil => cases h
  | cons x t ih =>
    rcases List.mem_cons.mp h with h1 | h1
    · subst h1
      exact le_trans (le_max_right a m) (le_foldl_max t (max a m))
    · exact ih (max a x) h1

theorem foldl_max_eq_or_mem (l : List Nat) (a : Nat) :
    l.foldl max a = a ∨ l.foldl max a ∈ l := by
  induction l generalizing a with
  | nil => exact Or.inl rfl
  | cons x t ih =>
    rcases ih (max a x) with h1 | h1
    · rcases max_choice a x with h2 | h2
      · left
        rw [List.foldl_cons, h1, h2]
      · right
        rw [List.foldl_cons, h1, h2]
        exact List.mem_cons_self x t
    · right
      rw [List.foldl_cons]
      exact List.mem_cons_of_mem x h1

theorem markers_le_glpp (lines : List String) :
    ∀ m ∈ page_markers lines, m ≤ get_last_processed_page lines := by
  intro m hm
  have hne : (page_markers lines).isEmpty = false := by
    cases h : page_markers lines with
    | nil => rw [h] at hm; cases hm
    | cons x t => rfl
  simp only [get_last_processed_page, hne, Bool.false_eq_true, if_false]
  exact mem_le_foldl_max (page_markers lines) 0 m hm

theorem glpp_mem_of_ne_nil (lines : List String) (h : page_markers lines ≠ []) :
    get_last_processed_page lines ∈ page_markers lines := by
  have hne : (page_markers lines).isEmpty = false := by
    cases hc : page_markers lines with
    | nil => exact absurd hc h
    | cons x t => rfl
  simp only [get_last_processed_page, hne, Bool.false_eq_true, if_false]
  rcases foldl_max_eq_or_mem (page_markers lines) 0 with h1 | h1
  · cases hc : page_markers lines with
    | nil => exact absurd hc h
    | cons x t =>
      rw [hc] at h1
      have hx : x ≤ List.foldl max 0 (x :: t) :=
        mem_le_foldl_max _ 0 x (List.mem_cons_self x t)
      rw [h1] at hx
      have hx0 : x = 0 := Nat.le_zero.mp hx
      rw [h1, ← hx0]
      exact List.mem_cons_self x t
  · exact h1

theorem glpp_of_nil (lines : List String) (h : page_markers lines = []) :
    get_last_processed_page lines = 0 := by
  simp [get_last_processed_page, h]

theorem runLoopAux_entries_ge (llm : Nat → PageOutcome) (stop : Nat → Bool) (maxErr : Nat) :
    ∀ (r page cerr : Nat), ∀ e ∈ (runLoopAux llm stop maxErr r page cerr).entries,
      page + 1 ≤ e.1 := by
  intro r
  induction r with
  | zero => intro page cerr e he; cases he
  | succ r ih =>
    intro page cerr e he
    rw [runLoopAux] at he
    by_cases hs : stop page
    · simp [hs] at he
    · simp only [hs, if_false, Bool.false_eq_true] at he
      cases hllm : llm page with
      | interrupted => rw [hllm] at he; cases he
      | failure =>
        rw [hllm] at he
        by_cases hm : maxErr ≤ cerr + 1
        · simp [hm] at he
        · simp only [hm, if_false] at he
          have := ih (page + 1) (cerr + 1) e he
          omega
      | success t =>
        rw [hllm] at he
        simp only [List.mem_cons] at he
        rcases he with he | he
        · rw [he]
        · have := ih (page + 1) 0 e he
          omega

theorem runLoopAux_chain (llm : Nat → PageOutcome) (stop : Nat → Bool) (maxErr : Nat) :
    ∀ (r page cerr : Nat),
      List.Chain' (· < ·) ((runLoopAux llm stop maxErr r page cerr).entries.map Prod.fst) := by
  intro r
  induction r with
  | zero => intro page cerr; simp [runLoopAux]
  | succ r ih =>
    intro page cerr
    rw [runLoopAux]
    by_cases hs : stop page
    · simp [hs]
    · simp only [hs, if_false, Bool.false_eq_true]
      cases hllm : llm page with
      | interrupted => simp
      | failure =>
        by_cases hm : maxErr ≤ cerr + 1
        · simp [hm]
        · simpa [hm] using ih (page + 1) (cerr + 1)
      | success t =>
        simp only [List.map_cons]
        rw [List.chain'_cons']
        refine ⟨?_, ih (page + 1) 0⟩
        intro y hy
        have hy' : y ∈ ((runLoopAux llm stop maxErr r (page + 1) 0).entries.map Prod.fst) :=
          List.mem_of_mem_head? hy
        rcases List.mem_map.mp hy' with ⟨e, he, rfl⟩
        have := runLoopAux_entries_ge llm stop maxErr r (page + 1) 0 e he
        omega

theorem runLoopAux_success (llm : Nat → PageOutcome) (txt : Nat → List Char) (maxErr : Nat)
    (h : ∀ p, llm p = PageOutcome.success (txt p)) :
    ∀ (r page cerr : Nat),
      runLoopAux llm (fun _ => false) maxErr r page cerr =
        ⟨(List.range' page r).map (fun p => (p + 1, entryOf (txt p))), [],
          List.range' page r, EndReason.finished⟩ := by
  intro r
  induction r with
  | zero => intro page cerr; rfl
  | succ r ih =>
    intro page cerr
    rw [runLoopAux, h page]
    simp only [if_false, Bool.false_eq_true]
    rw [ih (page + 1) 0, List.range'_succ]
    rfl

theorem runLoopAux_err (N : Nat) :
    ∀ (r page cerr : Nat), cerr < N → N - cerr ≤ r →
      runLoopAux (fun _ => PageOutcome.failure) (fun _ => false) N r page cerr =
        ⟨[], List.range' (page + 1) (N - cerr), List.range' page (N - cerr),
          EndReason.threshold⟩ := by
  intro r
  induction r with
  | zero => intro page cerr h1 h2; omega
  | succ r ih =>
    intro page cerr h1 h2
    rw [runLoopAux]
    simp only [if_false, Bool.false_eq_true]
    by_cases hm : N ≤ cerr + 1
    · have hNc : N - cerr = 1 := by omega
      simp [hm, hNc, List.range'_succ]
    · have h1' : cerr + 1 < N := by omega
      have h2' : N - (cerr + 1) ≤ r := by omega
      rw [if_neg hm, ih (page + 1) (cerr + 1) h1' h2']
      have hNc : N - cerr = (N - (cerr + 1)) + 1 := by omega
      rw [hNc, List.range'_succ, List.range'_succ]

theorem runLoopAux_interrupted (llm : Nat → PageOutcome) (stop : Nat → Bool)
    (maxErr r page cerr : Nat) (hs : stop page = false)
    (hllm : llm page = PageOutcome.interrupted) :
    runLoopAux llm stop maxErr (r + 1) page cerr = ⟨[], [], [page], EndReason.interrupted⟩ := by
  rw [runLoopAux, hs, hllm]
  rfl

theorem jobs_started_all {α : Type} (jobs : List α) :
    jobs_started jobs (fun _ => false) = jobs := by
  induction jobs with
  | nil => rfl
  | cons j rest ih => simpa [jobs_started] using ih

theorem jobs_started_stop {α : Type} :
    ∀ (jobs : List α) (flag : Nat → Bool) (i : Nat), flag i = true →
      (jobs_started jobs flag).length ≤ i := by
  intro jobs
  induction jobs with
  | nil => intro flag i _; simp [jobs_started]
  | cons j rest ih =>
    intro flag i hfi
    rw [jobs_started]
    by_cases h0 : flag 0
    · simp [h0]
    · cases i with
      | zero => exact absurd hfi h0
      | succ i' =>
        simp only [h0, if_false, Bool.false_eq_true, List.length_cons]
        have := ih (fun k => flag (k + 1)) i' hfi
        omega

theorem do_request_budgets (server : Nat → ServerResp) :
    ∀ (fuel B : Nat) (bs : List Nat) (res : RequestResult),
      do_request server fuel B = some (bs, res) →
      bs.head? = some B ∧ List.Chain' (fun a b => b = a * 2) bs := by
  intro fuel
  induction fuel with
  | zero => intro B bs res h; cases h
  | succ fuel ih =>
    intro B bs res h
    rw [do_request] at h
    cases hsrv : server B with
    | err =>
      rw [hsrv] at h
      injection h with h
      injection h with h1 h2
      subst h1
      exact ⟨rfl, List.chain'_singleton B⟩
    | ok events =>
      simp only [hsrv] at h
      by_cases hfin : (runStream events).finish_reason = some "length"
      · rw [if_pos hfin] at h
        cases hrec : do_request server fuel (B * 2) with
        | none => rw [hrec] at h; cases h
        | some p =>
          obtain ⟨bs', r'⟩ := p
          rw [hrec] at h
          injection h with h
          injection h with h1 h2
          subst h1
          obtain ⟨ihead, ichain⟩ := ih (B * 2) bs' r' hrec
          refine ⟨rfl, ?_⟩
          rw [List.chain'_cons']
          refine ⟨?_, ichain⟩
          intro y hy
          rw [ihead] at hy
          cases hy
          rfl
      · rw [if_neg hfin] at h
        injection h with h
        injection h with h1 h2
        subst h1
        exact ⟨rfl, List.chain'_singleton B⟩

/-! ## Claims -/

/-- C1.  Resume correctness: `get_last_processed_page` returns the maximum
page number among page-marker lines (0 when no marker matches); resuming a
job with `total` pages then processes exactly the 0-based pages from that
maximum up to `total - 1` (when every page succeeds and no stop is
requested); no written record re-emits a page whose marker is already
present; in particular a checkpoint with markers 1, 2, 3 of a 5-page job
yields resume point 3 and reprocesses only pages 4 and 5. -/
theorem C1_resume_correctness :
    (∀ lines : List String,
      (page_markers lines = [] → get_last_processed_page lines = 0) ∧
      (∀ m ∈ page_markers lines, m ≤ get_last_processed_page lines) ∧
      (page_markers lines ≠ [] →
        get_last_processed_page lines ∈ page_markers lines)) ∧
    (∀ (lines : List String) (total maxErr : Nat) (llm : Nat → PageOutcome)
        (txt : Nat → List Char), (∀ p, llm p = PageOutcome.success (txt p)) →
      (convert_pdf_to_images (some lines) total llm (fun _ => false) maxErr).result.attempts =
        List.range' (get_last_processed_page lines)
          (total - get_last_processed_page lines)) ∧
    (∀ (lines : List String) (total maxErr : Nat) (llm : Nat → PageOutcome)
        (stop : Nat → Bool), ∀ m ∈ page_markers lines,
      ∀ e ∈ (convert_pdf_to_images (some lines) total llm stop maxErr).result.entries,
        m < e.1) ∧
    (get_last_processed_page ["# Doc", "## Página 1", "uno", "## Página 2", "dos",
        "## Página 3", "tres"] = 3 ∧
      (convert_pdf_to_images (some ["# Doc", "## Página 1", "uno", "## Página 2", "dos",
          "## Página 3", "tres"]) 5 (fun _ => PageOutcome.success ['x'])
          (fun _ => false) 3).result.attempts = [3, 4] ∧
      (convert_pdf_to_images (some ["# Doc", "## Página 1", "uno", "## Página 2", "dos",
          "## Página 3", "tres"]) 5 (fun _ => PageOutcome.success ['x'])
          (fun _ => false) 3).result.entries.map Prod.fst = [4, 5]) := by
  refine ⟨?_, ?_, ?_, ?_, ?_, ?_⟩
  · intro lines
    exact ⟨glpp_of_nil lines, markers_le_glpp lines, glpp_mem_of_ne_nil lines⟩
  · intro lines total maxErr llm txt hllm
    by_cases hle : total ≤ get_last_processed_page lines
    · simp only [convert_pdf_to_images, if_pos hle]
      have h0 : total - get_last_processed_page lines = 0 := by omega
      rw [h0]
      rfl
    · simp only [convert_pdf_to_images, if_neg hle, process_pages]
      rw [runLoopAux_success llm txt maxErr hllm]
  · intro lines total maxErr llm stop m hm e he
    by_cases hle : total ≤ get_last_processed_page lines
    · simp [convert_pdf_to_images, if_pos hle] at he
    · simp only [convert_pdf_to_images, if_neg hle, process_pages] at he
      have h1 := runLoopAux_entries_ge llm stop maxErr
        (total - get_last_processed_page lines) (get_last_processed_page lines) 0 e he
      have h2 := markers_le_glpp lines m hm
      omega
  · decide
  · decide
  · decide

/-- C2.  Truncation retry doubling: every reissue after a truncated attempt
uses exactly double the previous token budget (the budgets issued form a
doubling chain starting at the initial budget); against a server that
truncates at budget `B` and succeeds at any budget at least `2 * B`,
exactly two attempts are issued, the second with budget `B * 2`, the
returned text being solely the second attempt's accumulated text. -/
theorem C2_truncation_retry_doubling :
    (∀ (server : Nat → ServerResp) (fuel B : Nat) (bs : List Nat) (res : RequestResult),
      do_request server fuel B = some (bs, res) →
      bs.head? = some B ∧ List.Chain' (fun a b => b = a * 2) bs) ∧
    (∀ (server : Nat → ServerResp) (B : Nat), 1 ≤ B →
      respTruncated (server B) = true →
      (∀ b, 2 * B ≤ b → respIsError (server b) = false ∧ respTruncated (server b) = false) →
      ∀ fuel, 2 ≤ fuel →
        do_request server fuel B =
          some ([B, B * 2], RequestResult.ok (respText (server (B * 2))))) := by
  refine ⟨fun server => do_request_budgets server, ?_⟩
  intro server B hB htrunc hsucc fuel hfuel
  obtain ⟨f, rfl⟩ : ∃ f, fuel = f + 1 + 1 := ⟨fuel - 2, by omega⟩
  cases hsrvB : server B with
  | err => rw [hsrvB] at htrunc; simp [respTruncated] at htrunc
  | ok ev =>
    rw [hsrvB] at htrunc
    have hfin : (runStream ev).finish_reason = some "length" := by
      simpa [respTruncated] using htrunc
    obtain ⟨herr2, htr2⟩ := hsucc (B * 2) (by omega)
    cases hsrv2 : server (B * 2) with
    | err => rw [hsrv2] at herr2; simp [respIsError] at herr2
    | ok ev2 =>
      rw [hsrv2] at htr2
      have hfin2 : ¬ (runStream ev2).finish_reason = some "length" := by
        simpa [respTruncated] using htr2
      rw [do_request]
      simp only [hsrvB]
      rw [if_pos hfin, do_request]
      simp only [hsrv2]
      rw [if_neg hfin2]
      simp [respText, hsrv2]

/-- C3.  Consecutive-error threshold: with a server that always fails and
threshold `N`, the loop performs exactly `N` page attempts, records the `N`
failed page numbers, writes no checkpoint entry for any of them, and stops
the whole job; a failed page below the threshold writes no entry, records
the failure and continues to the next page with the counter incremented;
successful pages reset the counter, so an alternating failure/success
pattern never reaches a threshold of 2. -/
theorem C3_consecutive_error_threshold :
    (∀ (N total start : Nat), 1 ≤ N → start + N ≤ total →
      process_pages (fun _ => PageOutcome.failure) (fun _ => false) N total start =
        ⟨[], List.range' (start + 1) N, List.range' start N, EndReason.threshold⟩) ∧
    (∀ (llm : Nat → PageOutcome) (stop : Nat → Bool) (N r page cerr : Nat),
      stop page = false → llm page = PageOutcome.failure → cerr + 1 < N →
      runLoopAux llm stop N (r + 1) page cerr =
        (let rest := runLoopAux llm stop N r (page + 1) (cerr + 1);
          ⟨rest.entries, (page + 1) :: rest.error_pages, page :: rest.attempts,
            rest.endReason⟩)) ∧
    ((process_pages (fun p => if p % 2 = 0 then PageOutcome.failure
          else PageOutcome.success ['x']) (fun _ => false) 2 6 0).endReason =
        EndReason.finished) := by
  refine ⟨?_, ?_, by decide⟩
  · intro N total start hN hle
    unfold process_pages
    have h := runLoopAux_err N (total - start) start 0 (by omega) (by omega)
    simpa using h
  · intro llm stop N r page cerr hs hllm hlt
    rw [runLoopAux, hs, hllm]
    simp only [Bool.false_eq_true, if_false]
    rw [if_neg (show ¬ N ≤ cerr + 1 by omega)]

/-- C4.  Interruption discards partial work: when a page attempt fails with
`Interrupted`, the loop stops at once — no checkpoint entry or placeholder
is written for that page, it is not counted as an error, and no later page
is attempted; and a stop flag observed true before job `i` means at most
`i` jobs were started, so no subsequent job runs. -/
theorem C4_interruption_discards :
    (∀ (llm : Nat → PageOutcome) (stop : Nat → Bool) (maxErr r page cerr : Nat),
      stop page = false → llm page = PageOutcome.interrupted →
      runLoopAux llm stop maxErr (r + 1) page cerr =
        ⟨[], [], [page], EndReason.interrupted⟩) ∧
    (∀ (α : Type) (jobs : List α) (flag : Nat → Bool) (i : Nat),
      flag i = true → (jobs_started jobs flag).length ≤ i) := by
  exact ⟨fun llm stop maxErr r page cerr hs hllm =>
      runLoopAux_interrupted llm stop maxErr r page cerr hs hllm,
    fun _ jobs flag i h => jobs_started_stop jobs flag i h⟩

/-- C5.  Metadata stripping: when the text starts with a fenced delimiter
line and a matching closing delimiter is found, everything up to and
including the closing delimiter is removed and the remainder is returned
trimmed; text without a leading fenced delimiter line is returned unchanged
modulo trimming; a fenced block followed by body text yields exactly the
trimmed body, and a fenced block with no trailing body yields the empty
string. -/
theorem C5_metadata_stripping :
    (∀ (s a r : List Char), matchOpen s = some a → findClose a = some r →
      call_llm_text s = pyStrip r) ∧
    (∀ s : List Char, matchOpen s = none → call_llm_text s = pyStrip s) ∧
    (call_llm_text "---\ntitle: x\n---\nBody text".data = "Body text".data) ∧
    (call_llm_text "  plain text ".data = "plain text".data) ∧
    (call_llm_text "---\nmeta\n---\n".data = []) := by
  refine ⟨?_, ?_, by decide, by decide, by decide⟩
  · intro s a r h1 h2
    simp only [call_llm_text, strip_metadata, h1, h2]
  · intro s h
    simp only [call_llm_text, strip_metadata, h]

/-- C6.  Idempotent completion: a job whose existing checkpoint has resume
point at least the total page count is skipped outright — no page attempt
is made (`attempts = []`, so zero network calls) and nothing is written
(`entries = []`); this holds for both the PDF and the image-directory
variants. -/
theorem C6_idempotent_completion :
    ∀ (lines : List String) (total maxErr : Nat) (llm : Nat → PageOutcome)
      (stop : Nat → Bool), total ≤ get_last_processed_page lines →
      convert_pdf_to_images (some lines) total llm stop maxErr =
        ⟨true, "a", get_last_processed_page lines, ⟨[], [], [], EndReason.finished⟩⟩ ∧
      process_image_dir (some lines) total llm stop maxErr =
        ⟨true, "a", get_last_processed_page lines, ⟨[], [], [], EndReason.finished⟩⟩ := by
  intro lines total maxErr llm stop h
  constructor
  · simp only [convert_pdf_to_images, if_pos h]
  · simp only [process_image_dir, if_pos h]

/-- C7.  Timeout with teardown: when the deadline elapses with the worker
still alive, `call_llm` performs the teardown of `_cancel_current_request`
and only then raises the timeout, so the trace is exactly the teardown
followed by the timeout; the teardown closes the registered transport and,
when a generation id is known, also notifies the server's cancel
endpoint. -/
theorem C7_timeout_teardown :
    (∀ (stopSet : Bool) (client : Option Unit) (gid : Option String) (res : RequestResult),
      call_llm_finish true stopSet client gid res =
        [CallStep.teardown (cancel_current_request client gid), CallStep.raiseTimeout]) ∧
    (∀ g : String, cancel_current_request (some ()) (some g) =
      [TeardownAction.closeTransport, TeardownAction.serverCancel g]) ∧
    (cancel_current_request (some ()) none = [TeardownAction.closeTransport]) := by
  exact ⟨fun _ _ _ _ => rfl, fun _ => rfl, rfl⟩

/-- C8.  Checkpoint ordering invariant: within a job, page records are
appended in strictly increasing page-number order (so the page numbers in
write order are monotonically non-decreasing); every marker present in the
checkpoint is at most the recovered resume point, and the resume logic
always starts at exactly `get_last_processed_page`, never a lower index,
even when intermediate numbers are sparse. -/
theorem C8_checkpoint_ordering :
    (∀ (llm : Nat → PageOutcome) (stop : Nat → Bool) (maxErr total start : Nat),
      List.Chain' (· < ·) ((process_pages llm stop maxErr total start).entries.map Prod.fst)) ∧
    (∀ lines : List String, ∀ m ∈ page_markers lines, m ≤ get_last_processed_page lines) ∧
    (∀ (lines : List String) (total maxErr : Nat) (llm : Nat → PageOutcome)
        (stop : Nat → Bool),
      (convert_pdf_to_images (some lines) total llm stop maxErr).start_page =
        get_last_processed_page lines) := by
  refine ⟨?_, ?_, ?_⟩
  · intro llm stop maxErr total start
    exact runLoopAux_chain llm stop maxErr (total - start) start 0
  · exact fun lines => markers_le_glpp lines
  · intro lines total maxErr llm stop
    by_cases hle : total ≤ get_last_processed_page lines
    · simp [convert_pdf_to_images, if_pos hle]
    · simp [convert_pdf_to_images, if_neg hle]

/-- C9 (counterexample).  The combined job order is not lexicographic by
name across the two groups: with a PDF named `1` and an image directory
named `0`, the driver runs the PDF first, producing the unsorted sequence
`[1, 0]`. -/
theorem C9_driver_order_not_lexicographic :
    main_driver [1] [0] (fun _ => false) = [1, 0] ∧
    ¬ List.Sorted (· ≤ ·) (main_driver [1] [0] (fun _ => false)) := by
  constructor
  · decide
  · decide

/-- C9 (amended).  The driver iterates jobs in a fixed deterministic
order: all PDF jobs in lexicographic order first, then all image-directory
jobs in lexicographic order (each group is sorted and together they cover
every job, but the combined order is not globally lexicographic); the stop
flag is re-checked before each job, so once stop is observed at job `i` no
further job is started. -/
theorem C9_job_ordering_amended :
    (∀ (α : Type) [LinearOrder α] (pdfs dirs : List α),
      main_driver pdfs dirs (fun _ => false) =
        List.insertionSort (· ≤ ·) pdfs ++ List.insertionSort (· ≤ ·) dirs) ∧
    (∀ (α : Type) [LinearOrder α] (pdfs dirs : List α),
      List.Sorted (· ≤ ·) (List.insertionSort (· ≤ ·) pdfs) ∧
      List.Sorted (· ≤ ·) (List.insertionSort (· ≤ ·) dirs) ∧
      (main_driver pdfs dirs (fun _ => false)).Perm (pdfs ++ dirs)) ∧
    (∀ (α : Type) [LinearOrder α] (jobs : List α) (flag : Nat → Bool) (i : Nat),
      flag i = true → (jobs_started jobs flag).length ≤ i) := by
  refine ⟨?_, ?_, ?_⟩
  · intro α instα pdfs dirs
    simp only [main_driver]
    exact jobs_started_all _
  · intro α instα pdfs dirs
    refine ⟨List.sorted_insertionSort _ _, List.sorted_insertionSort _ _, ?_⟩
    simp only [main_driver]
    rw [jobs_started_all]
    exact (List.perm_insertionSort _ pdfs).append (List.perm_insertionSort _ dirs)
  · intro α instα jobs flag i h
    exact jobs_started_stop jobs flag i h

/-- C10.  Completed work arriving after a stop request is discarded: when
the worker has finished with accumulated text but the stop flag is set,
`call_llm` raises `Interrupted` and the text is never returned; and the
loop's `Interrupted` handling writes no checkpoint entry for that page and
attempts no further page. -/
theorem C10_late_stop_interrupted :
    (∀ (client : Option Unit) (gid : Option String) (raw : List Char),
      call_llm_finish false true client gid (RequestResult.ok raw) =
        [CallStep.clearRegistration, CallStep.closeClient, CallStep.raiseInterrupted]) ∧
    (∀ (llm : Nat → PageOutcome) (stop : Nat → Bool) (maxErr r page cerr : Nat),
      stop page = false → llm page = PageOutcome.interrupted →
      (runLoopAux llm stop maxErr (r + 1) page cerr).entries = [] ∧
      (runLoopAux llm stop maxErr (r + 1) page cerr).attempts = [page]) := by
  refine ⟨fun client gid raw => rfl, ?_⟩
  intro llm stop maxErr r page cerr hs hllm
  rw [runLoopAux_interrupted llm stop maxErr r page cerr hs hllm]
  exact ⟨rfl, rfl⟩

/-! ## Witnesses -/

/-- Witness for C1: with one marker `## Página 2` and 4 pages, the resumed
run attempts exactly pages 2 and 3. -/
theorem C1_resume_correctness_witness :
    (convert_pdf_to_images (some ["## Página 2"]) 4 (fun _ => PageOutcome.success ['a'])
        (fun _ => false) 3).result.attempts = [2, 3] := by
  have h := C1_resume_correctness.2.1 ["## Página 2"] 4 3 (fun _ => PageOutcome.success ['a'])
    (fun _ => ['a']) (fun _ => rfl)
  have e : get_last_processed_page ["## Página 2"] = 2 := by decide
  rw [e] at h
  rw [h]
  decide

/-- Server for the C2 witness: truncates below budget 2, succeeds from 2. -/
def truncStream : List SSEEvent :=
  [SSEEvent.data none (some "par".data) none, SSEEvent.data none none (some "length"),
    SSEEvent.done]

/-- Successful stream for the C2 witness. -/
def okStream : List SSEEvent :=
  [SSEEvent.data (some "id2") (some "Body".data) none, SSEEvent.data none none (some "stop"),
    SSEEvent.done]

/-- Two-phase synthetic server for the C2 witness. -/
def twoPhaseServer (b : Nat) : ServerResp :=
  if b < 2 then ServerResp.ok truncStream else ServerResp.ok okStream

/-- Witness for C2: against `twoPhaseServer` with starting budget 1,
exactly two attempts run, with budgets 1 then 2, returning only the second
attempt's text. -/
theorem C2_truncation_retry_doubling_witness :
    do_request twoPhaseServer 2 1 = some ([1, 2], RequestResult.ok "Body".data) := by
  have h := C2_truncation_retry_doubling.2 twoPhaseServer 1 (by decide) (by decide)
    (fun b hb => by
      have hb2 : ¬ b < 2 := by omega
      simp only [twoPhaseServer, if_neg hb2]
      exact ⟨by decide, by decide⟩) 2 (by decide)
  have e : respText (twoPhaseServer (1 * 2)) = "Body".data := by decide
  rw [e] at h
  simpa using h

/-- Witness for C3: an always-failing server with threshold 2 starting at
page 1 of 3 attempts exactly pages 1 and 2 and writes nothing. -/
theorem C3_consecutive_error_threshold_witness :
    process_pages (fun _ => PageOutcome.failure) (fun _ => false) 2 3 1 =
      ⟨[], [2, 3], [1, 2], EndReason.threshold⟩ := by
  have h := C3_consecutive_error_threshold.1 2 3 1 (by decide) (by decide)
  rw [h]
  decide

/-- Witness for C4: an interrupted page 0 stops the loop with nothing
written, and a flag set from job 1 on starts at most 1 job. -/
theorem C4_interruption_discards_witness :
    runLoopAux (fun _ => PageOutcome.interrupted) (fun _ => false) 3 (2 + 1) 0 0 =
      ⟨[], [], [0], EndReason.interrupted⟩ ∧
    (jobs_started ([10, 20, 30] : List Nat) (fun i => decide (1 ≤ i))).length ≤ 1 :=
  ⟨C4_interruption_discards.1 (fun _ => PageOutcome.interrupted) (fun _ => false) 3 2 0 0 rfl rfl,
    C4_interruption_discards.2 Nat [10, 20, 30] (fun i => decide (1 ≤ i)) 1 (by decide)⟩

/-- Witness for C5: a fenced block followed by `Z` strips to `Z`, and text
with no opening delimiter is only trimmed. -/
theorem C5_metadata_stripping_witness :
    call_llm_text "---\na\n---\nZ".data = pyStrip "Z".data ∧
    call_llm_text "hi".data = pyStrip "hi".data :=
  ⟨C5_metadata_stripping.1 _ "a\n---\nZ".data "Z".data (by decide) (by decide),
    C5_metadata_stripping.2.1 "hi".data (by decide)⟩

/-- Witness for C6: a checkpoint whose resume point 7 exceeds the 5-page
total is skipped with no attempts and no writes. -/
theorem C6_idempotent_completion_witness :
    convert_pdf_to_images (some ["## Página 7"]) 5 (fun _ => PageOutcome.success [])
        (fun _ => false) 3 =
      ⟨true, "a", 7, ⟨[], [], [], EndReason.finished⟩⟩ := by
  have h := (C6_idempotent_completion ["## Página 7"] 5 3 (fun _ => PageOutcome.success [])
    (fun _ => false) (by decide)).1
  have e : get_last_processed_page ["## Página 7"] = 7 := by decide
  rw [e] at h
  exact h

/-- Witness for C8: marker 4 is at most the resume point of a checkpoint
holding markers 4 and 9. -/
theorem C8_checkpoint_ordering_witness :
    4 ≤ get_last_processed_page ["## Página 4", "## Página 9"] :=
  C8_checkpoint_ordering.2.1 ["## Página 4", "## Página 9"] 4 (by decide)

/-- Witness for C9 (amended): a flag set from job 2 on starts at most 2
jobs. -/
theorem C9_job_ordering_amended_witness :
    (jobs_started ([3, 1, 2] : List Nat) (fun i => decide (2 ≤ i))).length ≤ 2 :=
  C9_job_ordering_amended.2.2 Nat [3, 1, 2] (fun i => decide (2 ≤ i)) 2 (by decide)

/-- Witness for C10: an interrupted page 3 leaves no entries and only that
attempt. -/
theorem C10_late_stop_interrupted_witness :
    (runLoopAux (fun _ => PageOutcome.interrupted) (fun _ => false) 5 (0 + 1) 3 2).entries = [] ∧
    (runLoopAux (fun _ => PageOutcome.interrupted) (fun _ => false) 5 (0 + 1) 3 2).attempts = [3] :=
  C10_late_stop_interrupted.2 (fun _ => PageOutcome.interrupted) (fun _ => false) 5 0 3 2 rfl rfl

end LlmOcr
